import Mathlib

/-
  Shallow embedding of the paginated job crawler in
  `llm_crawler/ri_boss_data.py` (class `BossScraper` and the module-level
  `save_to_database`), together with the single-row insert collaborator in
  `llm_crawler/data_save.py` (`JobDatabase.insert_job`).

  Modelling choices:
  * The raw JSON payload delivered by the intercepted network response is
    modelled by `RawPayload`: optional `zpData`, under it an optional
    `jobList`, each job entry a record of optional fields (a missing Python
    dict key is `none`).
  * The browser page-session (DrissionPage `ChromiumPage`) is an external
    collaborator.  `listen.wait(timeout=10)` is modelled as an oracle
    `String → Nat → Option Packet`: `none` means no response matching the
    listened path substring arrived within the wait window (DrissionPage
    returns a falsy value in that case).
  * `run`'s `while True` loop performs one `fetch_data` per iteration; the
    sequence of fetch outcomes a session would observe is modelled as a tape
    `List FetchOutcome`, consumed left to right.  `FetchOutcome.exn`
    represents any exception raised while fetching or parsing that page
    (the body of the `try` up to and including `parse_jobs`); the state is
    not mutated before that point.  Running off the end of the tape yields
    the marker outcome `RunOutcome.offTape` (the real loop would keep
    fetching); every claim below concerns runs that stop within the tape.
  * Python's `set` of dedup keys is modelled as a `Finset (String × String)`.
  * Exceptions are modelled with `Except`: a Lean value `Except.error e`
    corresponds to the Python call raising, `Except.ok` to it returning.
-/

set_option autoImplicit false

namespace BossScraper

/-- One parsed job record, with exactly the ten fields that
`BossScraper.parse_jobs` puts into each `job_info` dict. -/
structure Job where
  position_name : String
  salary : String
  work_exp : String
  education : String
  work_city : String
  company_name : String
  company_size : String
  industry : String
  welfare : List String
  job_summary : List String
deriving DecidableEq, Repr

/-- One entry of `zpData.jobList` in the raw payload: each field the Python
code reads with `job.get(...)` is present (`some`) or absent (`none`). -/
structure RawJobEntry where
  jobName : Option String
  salaryDesc : Option String
  jobExperience : Option String
  jobDegree : Option String
  cityName : Option String
  brandName : Option String
  brandScaleName : Option String
  brandIndustry : Option String
  welfareList : Option (List String)
  skills : Option (List String)
deriving DecidableEq, Repr

/-- The `zpData` object of the payload; `jobList` may be absent. -/
structure ZpData where
  jobList : Option (List RawJobEntry)
deriving DecidableEq, Repr

/-- The raw JSON payload (`packet.response.body`); `zpData` may be absent. -/
structure RawPayload where
  zpData : Option ZpData
deriving DecidableEq, Repr

/-- The `job_info` dict built for one entry inside the `parse_jobs` loop:
each field is `job.get(key, default)` with default `''` for the string
fields and `[]` for `welfareList`/`skills`. -/
def job_info (job : RawJobEntry) : Job :=
  { position_name := job.jobName.getD ""
    salary := job.salaryDesc.getD ""
    work_exp := job.jobExperience.getD ""
    education := job.jobDegree.getD ""
    work_city := job.cityName.getD ""
    company_name := job.brandName.getD ""
    company_size := job.brandScaleName.getD ""
    industry := job.brandIndustry.getD ""
    welfare := job.welfareList.getD []
    job_summary := job.skills.getD [] }

/-- `BossScraper.parse_jobs`: start from `jobs = []`; if `'zpData' in data
and 'jobList' in data['zpData']`, append one `job_info` per entry of the
job list; return `jobs`. -/
def parse_jobs (data : RawPayload) : List Job :=
  let jobs : List Job := []
  match data.zpData with
  | none => jobs
  | some zp =>
    match zp.jobList with
    | none => jobs
    | some jobList => jobList.foldl (fun acc job => acc ++ [job_info job]) jobs

/-- The dedup key computed in `run`:
`(job.get('position_name', ''), job.get('company_name', ''))` — both keys
are always present in a dict produced by `parse_jobs`. -/
def jobKey (job : Job) : String × String :=
  (job.position_name, job.company_name)

/-- The mutable crawl-session state of a `BossScraper` instance that `run`
touches: the accumulated list `self.all_jobs` and the seen-key set
`self.seen_jobs`. -/
structure CrawlState where
  all_jobs : List Job
  seen_jobs : Finset (String × String)
deriving DecidableEq

/-- The state set up by `__init__`: `self.all_jobs = []`,
`self.seen_jobs = set()`. -/
def initState : CrawlState :=
  { all_jobs := [], seen_jobs := ∅ }

/-- The body of the dedup loop in `run` for one job:
`if key not in self.seen_jobs: self.all_jobs.append(job);
self.seen_jobs.add(key)`. -/
def processJob (s : CrawlState) (job : Job) : CrawlState :=
  let key := jobKey job
  if key ∈ s.seen_jobs then s
  else { all_jobs := s.all_jobs ++ [job], seen_jobs := insert key s.seen_jobs }

/-- `for job in page_jobs: ...` — fold the dedup step over one page. -/
def processPage (s : CrawlState) (page_jobs : List Job) : CrawlState :=
  page_jobs.foldl processJob s

/-- Outcome of one `fetch_data` + `parse_jobs` attempt inside the `try`
block of `run`: either the parsed payload, or an exception raised while
fetching or parsing (before any state mutation). -/
inductive FetchOutcome where
  | ok (data : RawPayload)
  | exn (e : String)
deriving DecidableEq

/-- How a modelled run of the page loop ended. `offTape` marks the model's
page tape running out before the loop stopped. -/
inductive RunOutcome where
  | exhausted
  | stalled
  | aborted
  | offTape
deriving DecidableEq, Repr

/-- Result of the page loop: final state, how it stopped, and how many
pages were fetched (number of `fetch_data` calls made). -/
structure RunResult where
  final : CrawlState
  outcome : RunOutcome
  fetched : Nat
deriving DecidableEq

/-- The `while True` loop of `run`, from state `s` with the current value
of `previous_job_count`, consuming the tape of fetch outcomes:
fetch the page (an exception breaks out of the loop leaving the state
untouched); if `page_jobs` is empty, break (exhausted); otherwise dedup the
page, and if `len(self.all_jobs)` equals `previous_job_count`, break
(stalled); else continue with `previous_job_count = current_job_count`. -/
def runLoop (s : CrawlState) (previous_job_count : Nat) :
    List FetchOutcome → RunResult
  | [] => { final := s, outcome := .offTape, fetched := 0 }
  | .exn _ :: _ => { final := s, outcome := .aborted, fetched := 1 }
  | .ok data :: rest =>
    let page_jobs := parse_jobs data
    if page_jobs = [] then { final := s, outcome := .exhausted, fetched := 1 }
    else
      let s1 := processPage s page_jobs
      if s1.all_jobs.length = previous_job_count then
        { final := s1, outcome := .stalled, fetched := 1 }
      else
        let r := runLoop s1 s1.all_jobs.length rest
        { final := r.final, outcome := r.outcome, fetched := r.fetched + 1 }

/-- `BossScraper.run` on a fresh instance: `page_number = 1`,
`previous_job_count = 0`, state from `__init__`. -/
def run (tape : List FetchOutcome) : RunResult :=
  runLoop initState 0 tape

/-- The set of dedup keys occurring on one parsed page. -/
def keyset (data : RawPayload) : Finset (String × String) :=
  ((parse_jobs data).map jobKey).toFinset

/-- The path substring registered by `self.page.listen.start(...)`. -/
def listen_path : String := "wapi/zpgeek/search/joblist.json"

/-- The wait bound passed to `self.page.listen.wait(timeout=10)`. -/
def fetch_timeout : Nat := 10

/-- A network packet captured by the listener; `body` is
`packet.response.body`. -/
structure Packet where
  body : RawPayload

/-- `BossScraper.fetch_data(page_number)`, with the page-session's
`listen.wait` modelled as an oracle mapping (path substring, timeout) to
the matching packet, or `none` when no matching response arrives within the
wait window.  `if not packet: raise TimeoutError(...)`; otherwise return
`packet.response.body`. -/
def fetch_data (wait : String → Nat → Option Packet) (_page_number : Nat) :
    Except String RawPayload :=
  match wait listen_path fetch_timeout with
  | none => Except.error "TimeoutError"
  | some packet => Except.ok packet.body

/-- An initialized page-session handle (a live `ChromiumPage`); abstract. -/
structure PageSession where
  id : Nat
deriving DecidableEq

/-- `BossScraper.quit`: the body is exactly `self.page.quit()` with no
guard.  The argument is the instance's page-session: `none` models an
instance whose page-session was never successfully initialized (the
attribute access then raises `AttributeError`); for an initialized session
the call delegates to the external page capability and releases it. -/
def quit (page : Option PageSession) : Except String Unit :=
  match page with
  | none => Except.error "AttributeError"
  | some _ => Except.ok ()

/-- The per-row loop of `save_to_database`: for each row, try
`db.insert_job(...)` (modelled by the oracle `ins`, `Except.error`
meaning the insert raised) and on exception print and continue.  Returns
the rows in attempt order, each paired with whether its insert succeeded. -/
def insert_rows (ins : Job → Except String Unit) :
    List Job → List (Job × Bool)
  | [] => []
  | row :: rest =>
    match ins row with
    | Except.ok _ => (row, true) :: insert_rows ins rest
    | Except.error _ => (row, false) :: insert_rows ins rest

/-- `save_to_database(df, table_name)`: create the table when absent, then
run the per-row insert loop over the rows. -/
def save_to_database (existing_tables : List String) (table_name : String)
    (ins : Job → Except String Unit) (rows : List Job) :
    List String × List (Job × Bool) :=
  let tables :=
    if table_name ∈ existing_tables then existing_tables
    else existing_tables ++ [table_name]
  (tables, insert_rows ins rows)

/-- Wellformedness of a crawl state: the seen-key set is exactly the set of
keys of the accumulated list, and those keys are pairwise distinct.  It
holds for the fresh state and is preserved by the dedup step. -/
def StateInv (s : CrawlState) : Prop :=
  s.seen_jobs = (s.all_jobs.map jobKey).toFinset ∧ (s.all_jobs.map jobKey).Nodup

lemma stateInv_init : StateInv initState := by
  simp [StateInv, initState]

lemma processJob_of_mem {s : CrawlState} {j : Job}
    (h : jobKey j ∈ s.seen_jobs) : processJob s j = s := by
  simp [processJob, h]

lemma processJob_of_not_mem {s : CrawlState} {j : Job}
    (h : jobKey j ∉ s.seen_jobs) :
    processJob s j =
      { all_jobs := s.all_jobs ++ [j],
        seen_jobs := insert (jobKey j) s.seen_jobs } := by
  simp [processJob, h]

lemma stateInv_processJob {s : CrawlState} (j : Job) (h : StateInv s) :
    StateInv (processJob s j) := by
  obtain ⟨hseen, hnd⟩ := h
  by_cases hk : jobKey j ∈ s.seen_jobs
  · rw [processJob_of_mem hk]; exact ⟨hseen, hnd⟩
  · rw [processJob_of_not_mem hk]
    constructor
    · simp only [List.map_append, List.map_cons, List.map_nil,
        List.toFinset_append, hseen]
      ext x
      simp [or_comm]
    · have hx : jobKey j ∉ s.all_jobs.map jobKey := by
        intro hmem
        exact hk (by rw [hseen]; exact List.mem_toFinset.mpr hmem)
      simp only [List.map_append, List.map_cons, List.map_nil]
      rw [List.nodup_append]
      exact ⟨hnd, List.nodup_singleton _, by simpa using hx⟩

lemma stateInv_processPage (js : List Job) :
    ∀ s : CrawlState, StateInv s → StateInv (processPage s js) := by
  induction js with
  | nil => intro s h; exact h
  | cons j t ih =>
    intro s h
    exact ih (processJob s j) (stateInv_processJob j h)

lemma processJob_seen (s : CrawlState) (j : Job) :
    (processJob s j).seen_jobs = insert (jobKey j) s.seen_jobs := by
  by_cases hk : jobKey j ∈ s.seen_jobs
  · rw [processJob_of_mem hk, Finset.insert_eq_self.mpr hk]
  · rw [processJob_of_not_mem hk]

lemma processPage_seen (js : List Job) :
    ∀ s : CrawlState,
      (processPage s js).seen_jobs = s.seen_jobs ∪ (js.map jobKey).toFinset := by
  induction js with
  | nil => intro s; simp [processPage]
  | cons j t ih =>
    intro s
    have hstep : processPage s (j :: t) = processPage (processJob s j) t := rfl
    rw [hstep, ih, processJob_seen]
    ext x
    simp [or_comm, or_assoc, or_left_comm]

lemma processPage_len (js : List Job) :
    ∀ s : CrawlState,
      (processPage s js).all_jobs.length =
        s.all_jobs.length + ((js.map jobKey).toFinset \ s.seen_jobs).card := by
  induction js with
  | nil => intro s; simp [processPage]
  | cons j t ih =>
    intro s
    have hstep : processPage s (j :: t) = processPage (processJob s j) t := rfl
    rw [hstep, ih]
    by_cases hk : jobKey j ∈ s.seen_jobs
    · rw [processJob_of_mem hk]
      have hset :
          ((j :: t).map jobKey).toFinset \ s.seen_jobs =
            (t.map jobKey).toFinset \ s.seen_jobs := by
        simp only [List.map_cons, List.toFinset_cons]
        exact Finset.insert_sdiff_of_mem _ hk
      rw [hset]
    · have hlen : (processJob s j).all_jobs.length = s.all_jobs.length + 1 := by
        rw [processJob_of_not_mem hk]; simp
      have hseen := processJob_seen s j
      rw [hlen, hseen]
      have h1 : (t.map jobKey).toFinset \ insert (jobKey j) s.seen_jobs =
          ((t.map jobKey).toFinset \ s.seen_jobs).erase (jobKey j) :=
        Finset.sdiff_insert _ _ _
      have h2 : ((j :: t).map jobKey).toFinset \ s.seen_jobs =
          insert (jobKey j) ((t.map jobKey).toFinset \ s.seen_jobs) := by
        simp only [List.map_cons, List.toFinset_cons]
        exact Finset.insert_sdiff_of_not_mem _ hk
      rw [h1, h2]
      by_cases hy : jobKey j ∈ (t.map jobKey).toFinset \ s.seen_jobs
      · have hpos : 0 < ((t.map jobKey).toFinset \ s.seen_jobs).card :=
          Finset.card_pos.mpr ⟨_, hy⟩
        rw [Finset.card_erase_of_mem hy, Finset.insert_eq_self.mpr hy]
        omega
      · rw [Finset.erase_eq_of_not_mem hy, Finset.card_insert_of_not_mem hy]
        omega

lemma foldl_append_job_info (l : List RawJobEntry) :
    ∀ acc : List Job,
      l.foldl (fun acc job => acc ++ [job_info job]) acc = acc ++ l.map job_info := by
  induction l with
  | nil => intro acc; simp
  | cons j t ih => intro acc; simp [List.foldl_cons, ih]

lemma parse_jobs_eq_map (entries : List RawJobEntry) :
    parse_jobs { zpData := some { jobList := some entries } } =
      entries.map job_info := by
  simp [parse_jobs, foldl_append_job_info]

lemma insert_rows_map_fst (ins : Job → Except String Unit) :
    ∀ rows : List Job, (insert_rows ins rows).map Prod.fst = rows := by
  intro rows
  induction rows with
  | nil => rfl
  | cons r t ih =>
    cases h : ins r <;> simp [insert_rows, h, ih]

/-- C2: at every point of a crawl session — initially (`js = []`) and after
any sequence of jobs has been processed by the dedup step of `run` — the
length of the accumulated list `all_jobs` equals the cardinality of the
seen-key set `seen_jobs`, and no dedup key `(position_name, company_name)`
occurs twice in the accumulated list. -/
theorem dedup_invariant (js : List Job) :
    (processPage initState js).all_jobs.length =
        (processPage initState js).seen_jobs.card
      ∧ ((processPage initState js).all_jobs.map jobKey).Nodup := by
  obtain ⟨hseen, hnd⟩ := stateInv_processPage js initState stateInv_init
  refine ⟨?_, hnd⟩
  rw [hseen, List.toFinset_card_of_nodup hnd, List.length_map]

/-- C3: when fetching or parsing a page raises any exception, the `try`
block of `run` catches it at the loop boundary: the loop stops (exactly one
more fetch is attempted, the remaining tape is never consumed), the
function returns normally with outcome `aborted`, and the state — the
records accumulated from earlier pages — is returned unchanged, available
for saving. -/
theorem run_catches_exn (s : CrawlState) (previous_job_count : Nat)
    (e : String) (rest : List FetchOutcome) :
    runLoop s previous_job_count (.exn e :: rest) =
      { final := s, outcome := .aborted, fetched := 1 } := rfl

/-- C4: whenever the expected top-level structure is absent from the raw
payload — no `zpData` key, or no `jobList` key under it — `parse_jobs`
returns the empty list (and, being total, raises no error). -/
theorem parse_jobs_missing_structure (d : RawPayload)
    (h : d.zpData = none ∨ ∃ zp, d.zpData = some zp ∧ zp.jobList = none) :
    parse_jobs d = [] := by
  obtain ⟨z⟩ := d
  rcases h with h | ⟨zp, h1, h2⟩
  · simp only at h
    rw [h]
    rfl
  · simp only at h1
    rw [h1]
    obtain ⟨jl⟩ := zp
    simp only at h2
    simp [parse_jobs, h2]

theorem parse_jobs_missing_structure_witness :
    parse_jobs { zpData := none } = []
      ∧ parse_jobs { zpData := some { jobList := none } } = [] :=
  ⟨parse_jobs_missing_structure _ (Or.inl rfl),
   parse_jobs_missing_structure _ (Or.inr ⟨_, rfl, rfl⟩)⟩

/-- C6: whenever a fetched page parses to a well-formed but empty job list,
the loop stops at that very page with the exhausted terminal outcome,
fetches nothing further, returns normally, and leaves the state unchanged. -/
theorem run_stops_on_empty_page (s : CrawlState) (previous_job_count : Nat)
    (pe : RawPayload) (rest : List FetchOutcome) (h : parse_jobs pe = []) :
    runLoop s previous_job_count (.ok pe :: rest) =
      { final := s, outcome := .exhausted, fetched := 1 } := by
  simp [runLoop, h]

theorem run_stops_on_empty_page_witness :
    runLoop initState 0 [FetchOutcome.ok { zpData := none }] =
      { final := initState, outcome := .exhausted, fetched := 1 } :=
  run_stops_on_empty_page initState 0 { zpData := none } [] rfl

/-- C7: `fetch_data` raises a timeout error exactly when the page-session's
`listen.wait`, queried for the listened path substring with the 10-second
bound, delivers no matching packet; when a matching packet does arrive,
`fetch_data` returns that packet's response body. -/
theorem fetch_data_timeout_iff (wait : String → Nat → Option Packet)
    (page_number : Nat) :
    (fetch_data wait page_number = Except.error "TimeoutError"
        ↔ wait listen_path fetch_timeout = none)
      ∧ ∀ p : Packet, wait listen_path fetch_timeout = some p →
          fetch_data wait page_number = Except.ok p.body := by
  constructor
  · cases h : wait listen_path fetch_timeout <;> simp [fetch_data, h]
  · intro p h
    simp [fetch_data, h]

theorem fetch_data_timeout_iff_witness :
    fetch_data (fun _ _ => (none : Option Packet)) 1 =
        Except.error "TimeoutError"
      ∧ fetch_data (fun _ _ => some ⟨{ zpData := none }⟩) 1 =
          Except.ok { zpData := none } :=
  ⟨(fetch_data_timeout_iff (fun _ _ => none) 1).1.mpr rfl,
   (fetch_data_timeout_iff (fun _ _ => some ⟨{ zpData := none }⟩) 1).2 _ rfl⟩

/-- C8 counterexample: on an instance whose page-session was never
successfully initialized, `quit` raises (`self.page.quit()` is unguarded,
so the attribute access raises `AttributeError`) — refuting the claim that
`quit` is safe and non-raising on any instance. -/
theorem quit_uninitialized_raises :
    quit none = Except.error "AttributeError" := rfl

/-- C8 amended: on every instance whose page-session was successfully
initialized, `quit` releases the page-session and does not raise; an
instance with no page-session sees the unguarded delegation raise instead
of being a no-op. -/
theorem quit_initialized_ok (ps : PageSession) :
    quit (some ps) = Except.ok () := rfl

/-- C9: during `save_to_database` over a non-empty row list, a failing
single-row insert is caught inside the per-row loop and the save continues:
every row — including every row after any failing one — is attempted
exactly once, in order, and no insert failure aborts the save or propagates
to the caller (the function is total and returns normally). -/
theorem save_attempts_every_row (existing_tables : List String)
    (table_name : String) (ins : Job → Except String Unit) (rows : List Job)
    (_hne : rows ≠ []) :
    ((save_to_database existing_tables table_name ins rows).2).map Prod.fst =
      rows := by
  simpa [save_to_database] using insert_rows_map_fst ins rows

theorem save_attempts_every_row_witness :
    ((save_to_database [] "jobs"
        (fun _ => Except.error "sqlite3.OperationalError")
        [{ position_name := "A", salary := "", work_exp := "",
           education := "", work_city := "", company_name := "X",
           company_size := "", industry := "", welfare := [],
           job_summary := [] }]).2).map Prod.fst =
      [{ position_name := "A", salary := "", work_exp := "",
         education := "", work_city := "", company_name := "X",
         company_size := "", industry := "", welfare := [],
         job_summary := [] }] :=
  save_attempts_every_row [] "jobs" _ _ (by simp)

/-- C10: for a payload whose `zpData.jobList` is a list of job entries,
`parse_jobs` returns exactly one record per entry, in the same order (the
image of the list under `job_info`), and each record's ten fields are the
corresponding source fields with a missing field defaulting to the empty
string — empty list for `welfare` and `job_summary` — rather than raising. -/
theorem parse_jobs_per_entry (entries : List RawJobEntry) :
    parse_jobs { zpData := some { jobList := some entries } } =
        entries.map job_info
      ∧ (parse_jobs { zpData := some { jobList := some entries } }).length =
          entries.length
      ∧ (∀ e : RawJobEntry,
          (job_info e).position_name = e.jobName.getD ""
          ∧ (job_info e).salary = e.salaryDesc.getD ""
          ∧ (job_info e).work_exp = e.jobExperience.getD ""
          ∧ (job_info e).education = e.jobDegree.getD ""
          ∧ (job_info e).work_city = e.cityName.getD ""
          ∧ (job_info e).company_name = e.brandName.getD ""
          ∧ (job_info e).company_size = e.brandScaleName.getD ""
          ∧ (job_info e).industry = e.brandIndustry.getD ""
          ∧ (job_info e).welfare = e.welfareList.getD []
          ∧ (job_info e).job_summary = e.skills.getD []) := by
  refine ⟨parse_jobs_eq_map entries, ?_, ?_⟩
  · rw [parse_jobs_eq_map entries, List.length_map]
  · intro e
    exact ⟨rfl, rfl, rfl, rfl, rfl, rfl, rfl, rfl, rfl, rfl⟩

lemma runLoop_cons_empty (s : CrawlState) (prev : Nat) (pe : RawPayload)
    (rest : List FetchOutcome) (h : parse_jobs pe = []) :
    runLoop s prev (.ok pe :: rest) =
      { final := s, outcome := .exhausted, fetched := 1 } := by
  simp [runLoop, h]

lemma runLoop_cons_stall (s : CrawlState) (prev : Nat) (data : RawPayload)
    (rest : List FetchOutcome) (hne : parse_jobs data ≠ [])
    (hstall : (processPage s (parse_jobs data)).all_jobs.length = prev) :
    runLoop s prev (.ok data :: rest) =
      { final := processPage s (parse_jobs data), outcome := .stalled,
        fetched := 1 } := by
  simp only [runLoop]
  rw [if_neg hne, if_pos hstall]

lemma runLoop_cons_progress (s : CrawlState) (prev : Nat) (data : RawPayload)
    (rest : List FetchOutcome) (hne : parse_jobs data ≠ [])
    (hprog : (processPage s (parse_jobs data)).all_jobs.length ≠ prev) :
    runLoop s prev (.ok data :: rest) =
      { final :=
          (runLoop (processPage s (parse_jobs data))
            (processPage s (parse_jobs data)).all_jobs.length rest).final,
        outcome :=
          (runLoop (processPage s (parse_jobs data))
            (processPage s (parse_jobs data)).all_jobs.length rest).outcome,
        fetched :=
          (runLoop (processPage s (parse_jobs data))
            (processPage s (parse_jobs data)).all_jobs.length rest).fetched
            + 1 } := by
  simp only [runLoop]
  rw [if_neg hne, if_neg hprog]

lemma keyset_card_pos {p : RawPayload} (h : parse_jobs p ≠ []) :
    0 < (keyset p).card := by
  obtain ⟨j, hj⟩ := List.exists_mem_of_ne_nil _ h
  exact Finset.card_pos.mpr ⟨jobKey j, List.mem_toFinset.mpr (List.mem_map_of_mem jobKey hj)⟩

lemma processPage_len_keyset (s : CrawlState) (p : RawPayload) :
    (processPage s (parse_jobs p)).all_jobs.length =
      s.all_jobs.length + (keyset p \ s.seen_jobs).card :=
  processPage_len (parse_jobs p) s

lemma processPage_seen_keyset (s : CrawlState) (p : RawPayload) :
    (processPage s (parse_jobs p)).seen_jobs = s.seen_jobs ∪ keyset p :=
  processPage_seen (parse_jobs p) s

/-- C1: at any point of a session, when the next fetched page contributes
at least one new key and the page after it yields only keys already seen
(100% overlap — in particular when the two pages carry identical keys), the
loop stops exactly after processing that second page: it does not stop
after the first page, it stalls after the second, and it never fetches a
third page. -/
theorem stall_stops_after_second_page (s : CrawlState)
    (p1 p2 : RawPayload) (rest : List FetchOutcome)
    (hnew : ∃ j ∈ parse_jobs p1, jobKey j ∉ s.seen_jobs)
    (h2 : parse_jobs p2 ≠ [])
    (hdup : ∀ j ∈ parse_jobs p2,
      jobKey j ∈ (processPage s (parse_jobs p1)).seen_jobs) :
    (runLoop s s.all_jobs.length
        (.ok p1 :: .ok p2 :: rest)).outcome = .stalled
      ∧ (runLoop s s.all_jobs.length
          (.ok p1 :: .ok p2 :: rest)).fetched = 2 := by
  obtain ⟨j0, hj0, hj0new⟩ := hnew
  have h1 : parse_jobs p1 ≠ [] := by
    intro hcon
    rw [hcon] at hj0
    cases hj0
  have hkey1 : jobKey j0 ∈ keyset p1 \ s.seen_jobs :=
    Finset.mem_sdiff.mpr
      ⟨List.mem_toFinset.mpr (List.mem_map_of_mem jobKey hj0), hj0new⟩
  have hcard1 : 0 < (keyset p1 \ s.seen_jobs).card :=
    Finset.card_pos.mpr ⟨_, hkey1⟩
  have hprog :
      (processPage s (parse_jobs p1)).all_jobs.length ≠ s.all_jobs.length := by
    rw [processPage_len_keyset]
    omega
  have hstall :
      (processPage (processPage s (parse_jobs p1)) (parse_jobs p2)).all_jobs.length
        = (processPage s (parse_jobs p1)).all_jobs.length := by
    rw [processPage_len_keyset]
    have hempty : keyset p2 \ (processPage s (parse_jobs p1)).seen_jobs = ∅ := by
      rw [Finset.sdiff_eq_empty_iff_subset]
      intro x hx
      obtain ⟨j, hj, hjx⟩ := List.mem_map.mp (List.mem_toFinset.mp hx)
      exact hjx ▸ hdup j hj
    rw [hempty, Finset.card_empty]
    omega
  rw [runLoop_cons_progress s s.all_jobs.length p1 (.ok p2 :: rest) h1 hprog,
    runLoop_cons_stall _ _ p2 rest h2 hstall]
  exact ⟨rfl, rfl⟩

/-- The run of a tape of pages with pairwise-disjoint key sets (all disjoint
from the keys already seen), terminated by an empty page: it visits every
page, stops exhausted on the terminator, and grows the accumulated list by
the number of distinct keys of each page. -/
lemma runLoop_disjoint_pages (pages : List RawPayload) :
    ∀ s : CrawlState,
      (∀ p ∈ pages, parse_jobs p ≠ []) →
      (s.seen_jobs :: pages.map keyset).Pairwise Disjoint →
      ∀ pe : RawPayload, parse_jobs pe = [] →
        (runLoop s s.all_jobs.length
            (pages.map FetchOutcome.ok ++ [FetchOutcome.ok pe])).final.all_jobs.length
            = s.all_jobs.length + (pages.map fun p => (keyset p).card).sum
          ∧ (runLoop s s.all_jobs.length
              (pages.map FetchOutcome.ok ++ [FetchOutcome.ok pe])).outcome
              = .exhausted
          ∧ (runLoop s s.all_jobs.length
              (pages.map FetchOutcome.ok ++ [FetchOutcome.ok pe])).fetched
              = pages.length + 1 := by
  induction pages with
  | nil =>
    intro s _ _ pe hpe
    rw [List.map_nil, List.nil_append,
      runLoop_cons_empty s s.all_jobs.length pe [] hpe]
    simp
  | cons p t ih =>
    intro s hne hdisj pe hpe
    have hp : parse_jobs p ≠ [] := hne p (List.mem_cons_self p t)
    obtain ⟨hd0, hd1⟩ := List.pairwise_cons.mp hdisj
    obtain ⟨hd2, hd3⟩ := List.pairwise_cons.mp hd1
    have hdisj_p : Disjoint (keyset p) s.seen_jobs :=
      (hd0 (keyset p) (by simp)).symm
    have hsd : keyset p \ s.seen_jobs = keyset p :=
      sdiff_eq_self_iff_disjoint'.mpr hdisj_p
    have hlen1 :
        (processPage s (parse_jobs p)).all_jobs.length =
          s.all_jobs.length + (keyset p).card := by
      rw [processPage_len_keyset, hsd]
    have hprog :
        (processPage s (parse_jobs p)).all_jobs.length ≠ s.all_jobs.length := by
      have := keyset_card_pos hp
      omega
    have hseen1 :
        (processPage s (parse_jobs p)).seen_jobs = s.seen_jobs ∪ keyset p :=
      processPage_seen_keyset s p
    have hdisj1 :
        ((processPage s (parse_jobs p)).seen_jobs :: t.map keyset).Pairwise
          Disjoint := by
      rw [List.pairwise_cons]
      refine ⟨?_, hd3⟩
      intro x hx
      rw [hseen1, Finset.disjoint_union_left]
      exact ⟨hd0 x (List.mem_cons_of_mem _ hx), hd2 x hx⟩
    have hne1 : ∀ q ∈ t, parse_jobs q ≠ [] := fun q hq =>
      hne q (List.mem_cons_of_mem _ hq)
    obtain ⟨ihlen, ihout, ihfetch⟩ :=
      ih (processPage s (parse_jobs p)) hne1 hdisj1 pe hpe
    rw [List.map_cons, List.cons_append,
      runLoop_cons_progress s s.all_jobs.length p
        (t.map FetchOutcome.ok ++ [FetchOutcome.ok pe]) hp hprog]
    refine ⟨?_, ihout, ?_⟩
    · rw [ihlen, hlen1, List.map_cons, List.sum_cons]
      omega
    · rw [ihfetch, List.length_cons]

/-- C5: for a session whose fetched pages carry pairwise-disjoint key sets
(each page nonempty) followed by an empty page, the final accumulated count
after `run` equals the sum over the pages of the number of distinct keys on
that page — no job is counted twice across pages, even when a
`position_name` recurs under a different `company_name`. -/
theorem run_disjoint_pages_sum (pages : List RawPayload) (pe : RawPayload)
    (hne : ∀ p ∈ pages, parse_jobs p ≠ [])
    (hdisj : (pages.map keyset).Pairwise Disjoint)
    (hpe : parse_jobs pe = []) :
    (run (pages.map FetchOutcome.ok
        ++ [FetchOutcome.ok pe])).final.all_jobs.length =
      (pages.map fun p => (keyset p).card).sum := by
  have hd : (initState.seen_jobs :: pages.map keyset).Pairwise Disjoint := by
    rw [List.pairwise_cons]
    refine ⟨?_, hdisj⟩
    intro x _
    simp [initState]
  have h := runLoop_disjoint_pages pages initState hne hd pe hpe
  simpa [run, initState] using h.1

/-- A concrete raw entry with title "A" at company "X". -/
def entryAX : RawJobEntry :=
  { jobName := some "A", salaryDesc := none, jobExperience := none,
    jobDegree := none, cityName := none, brandName := some "X",
    brandScaleName := none, brandIndustry := none, welfareList := none,
    skills := none }

/-- A concrete raw entry with title "B" at company "Y". -/
def entryBY : RawJobEntry :=
  { jobName := some "B", salaryDesc := none, jobExperience := none,
    jobDegree := none, cityName := none, brandName := some "Y",
    brandScaleName := none, brandIndustry := none, welfareList := none,
    skills := none }

/-- A concrete one-job page. -/
def pageAX : RawPayload := { zpData := some { jobList := some [entryAX] } }

/-- Another concrete one-job page, with a key disjoint from `pageAX`. -/
def pageBY : RawPayload := { zpData := some { jobList := some [entryBY] } }

/-- A concrete payload with no job data. -/
def pageEmpty : RawPayload := { zpData := none }

theorem stall_stops_after_second_page_witness :
    (runLoop initState initState.all_jobs.length
        [FetchOutcome.ok pageAX, FetchOutcome.ok pageAX]).outcome =
        RunOutcome.stalled
      ∧ (runLoop initState initState.all_jobs.length
          [FetchOutcome.ok pageAX, FetchOutcome.ok pageAX]).fetched = 2 :=
  stall_stops_after_second_page initState pageAX pageAX []
    (by decide) (by decide) (by decide)

theorem run_disjoint_pages_sum_witness :
    (run ([pageAX, pageBY].map FetchOutcome.ok
        ++ [FetchOutcome.ok pageEmpty])).final.all_jobs.length =
      ([pageAX, pageBY].map fun p => (keyset p).card).sum :=
  run_disjoint_pages_sum [pageAX, pageBY] pageEmpty
    (by decide) (by decide) rfl

end BossScraper
